import Mathlib

/-!
# Verification of the `prototype_20220329` language generator

Shallow embedding of `datatypes.py`, `ngram.py` and `language_generator.py`.

Conventions:
* Python floats are idealised as exact numbers: probabilities and the
  quantities derived from counts are `ℚ`; the log-scores of the generation
  loop are `ℝ` (they involve `math.log` and the Gaussian density), with the
  `-inf` initialisation modelled as `⊥ : WithBot ℝ`.
* The external ASCII transliteration (`unidecode.unidecode`) and the vowel
  reference table (`data/vowels.txt`) are out-of-scope collaborators; every
  definition is parameterised over them (`tr : String → String`,
  `vw : List Char`).
* Fallible Python code (`ZeroDivisionError`, `TypeError`, `ValueError`)
  is embedded with `Except PyErr`.  The unbounded `while` loop of
  `generate` is embedded with explicit fuel; running out of fuel is the
  distinguished artefact error `PyErr.outOfFuel`.
-/

/-- Errors raised by the embedded Python code.  `preconditionError` is the
deliberate precondition failure demanded by the design document; the code
itself never raises it.  `outOfFuel` is an artefact of the fueled embedding
of the unbounded `while` loop. -/
inductive PyErr where
  | zeroDivisionError
  | typeError
  | valueError
  | preconditionError
  | outOfFuel
deriving DecidableEq, Repr

/-- Python `CharType` from `datatypes.py`: the five character categories.  The
constructor order matches the Python `Enum` declaration order. -/
inductive CharType where
  | BOS
  | EOS
  | CONSONANT
  | VOWEL
  | SYMBOL
deriving DecidableEq, Repr

/-- Python `list(CharType)`: the five categories in Python enumeration order. -/
def CharType.all : List CharType :=
  [CharType.BOS, CharType.EOS, CharType.CONSONANT, CharType.VOWEL, CharType.SYMBOL]

/-- The begin-sentinel token `BOS = '<BOS>'`. -/
def bosToken : String := "<BOS>"

/-- The end-sentinel token `EOS = '<EOS>'`. -/
def eosToken : String := "<EOS>"

/-- Python `str.isalpha`: non-empty and every character alphabetic
(adequate for the ASCII output of the transliteration). -/
def pyIsAlpha (s : String) : Bool :=
  s ≠ "" && s.toList.all Char.isAlpha

/-- Python `Char.__post_init__` from `datatypes.py`: classify a text unit.
`tr` is the external transliteration (`unidecode.unidecode`), `vw` the
vowel reference table loaded from `data/vowels.txt`. -/
def classify (tr : String → String) (vw : List Char) (s : String) : CharType :=
  let a := tr s
  if a = bosToken then CharType.BOS
  else if a = eosToken then CharType.EOS
  else if ¬ pyIsAlpha a then CharType.SYMBOL
  else if (a.toList.getLastD 'x').toLower ∈ vw then CharType.VOWEL
  else CharType.CONSONANT

/-- The `Char` dataclass: the original text together with its derived
category. -/
structure PyChar where
  char : String
  chartype : CharType
deriving DecidableEq, Repr

/-- Build a `Char` from a string (`Char(char)` in Python): the category is
derived by `classify`. -/
def mkChar (tr : String → String) (vw : List Char) (s : String) : PyChar :=
  ⟨s, classify tr vw s⟩

/-- A `Sentence` is its list of classified characters. -/
abbrev PySentence := List PyChar

/-- Python `Sentence(sentence, add_bos, add_eos)`: `addB` begin-markers, the
classified characters of the raw string, `addE` end-markers. -/
def mkSentence (tr : String → String) (vw : List Char) (s : String)
    (addB addE : ℕ) : PySentence :=
  List.replicate addB (mkChar tr vw bosToken)
  ++ s.toList.map (fun c => mkChar tr vw (String.singleton c))
  ++ List.replicate addE (mkChar tr vw eosToken)

/-- Python `Sentence.get_chars`: the characters that are neither begin- nor
end-markers. -/
def contentChars (s : PySentence) : List PyChar :=
  s.filter (fun c => c.chartype ≠ CharType.BOS ∧ c.chartype ≠ CharType.EOS)

/-- Python `Sentence.get_num_chars`. -/
def contentLen (s : PySentence) : ℕ :=
  (contentChars s).length

/-! ## Python list access helpers (negative indices and slices) -/

/-- Translate a possibly negative Python index into a list position. -/
def pyIdxNat (len : ℕ) (k : ℤ) : ℕ :=
  if 0 ≤ k then k.toNat else len - (-k).toNat

/-- Python `l[k:]` for an integer `k` (negative `k` counts from the end). -/
def pyDropInt (l : List α) (k : ℤ) : List α :=
  if 0 ≤ k then l.drop k.toNat else l.drop (l.length - (-k).toNat)

/-- Python `l[k]` with a default for the (unreachable) out-of-range case. -/
def pyGetInt (l : List α) (k : ℤ) (dflt : α) : α :=
  l.getD (pyIdxNat l.length k) dflt

/-- Python `round`: round half to even (banker's rounding), on exact
rationals. -/
def pyRound (q : ℚ) : ℤ :=
  if q - ⌊q⌋ < 1/2 then ⌊q⌋
  else if 1/2 < q - ⌊q⌋ then ⌊q⌋ + 1
  else if Even ⌊q⌋ then ⌊q⌋ else ⌊q⌋ + 1

/-! ## `ngram.py`: the count-based category language model

The recursive nested-dictionary tables are embedded as total functions
keyed by the full category tuple; `_init_model` seeds every key at 1,
which on the (length-`n`) keys the Python code ever touches agrees with
`recursive_set(count_dict, prod, 1)` over all `5^n` products. -/

/-- A count table: every `n`-tuple of categories to its count. -/
abbrev CountTable := List CharType → ℕ

/-- Python `recursive_add(count_dict, key, 1)`. -/
def bumpCount (c : CountTable) (key : List CharType) : CountTable :=
  fun t => if t = key then c t + 1 else c t

/-- Python `_init_model`: all counts pre-seeded to 1. -/
def initModel : CountTable := fun _ => 1

/-- Count the `n`-windows of one sentence's category sequence
(`for i in range(len(chartypes) - self.ngram + 1)`; the Python range is
empty when the sequence is shorter than `n`, which `cts.length + 1 - n`
reproduces with natural subtraction). -/
def countSentence (n : ℕ) (c : CountTable) (cts : List CharType) : CountTable :=
  (List.range (cts.length + 1 - n)).foldl
    (fun acc i => bumpCount acc ((cts.drop i).take n)) c

/-- Python `_count_chartypes` over a corpus. -/
def countChartypes (n : ℕ) (c : CountTable) (sentences : List PySentence) : CountTable :=
  sentences.foldl (fun acc s => countSentence n acc (s.map (·.chartype))) c

/-- A probability table: context tuple and next category to probability. -/
abbrev ProbTable := List CharType → CharType → ℚ

/-- Python `_convert_count_to_prob`: per context, `count / total` over the five
next categories (the seeded dictionary holds exactly the five categories,
in `CharType` enumeration order). -/
def convertCountToProb (c : CountTable) : ProbTable :=
  fun ctx nxt =>
    (c (ctx ++ [nxt]) : ℚ) / ((CharType.all.map (fun x => c (ctx ++ [x]))).sum : ℚ)

/-- Python `NgramCharTypeModel.fit`: wrap each (already classified) sentence with
`n-1` begin-markers and 1 end-marker, count all `n`-windows, convert to
probabilities. -/
def modelWrap (tr : String → String) (vw : List Char) (n : ℕ)
    (s : PySentence) : PySentence :=
  List.replicate (n - 1) (mkChar tr vw bosToken) ++ s ++ [mkChar tr vw eosToken]

/-- The probability table trained by `NgramCharTypeModel.fit` of order `n`. -/
def ngramFit (tr : String → String) (vw : List Char) (n : ℕ)
    (sentences : List PySentence) : ProbTable :=
  convertCountToProb
    (countChartypes n initModel (sentences.map (modelWrap tr vw n)))

/-- Python `NgramCharTypeModels.__init__` + `fit`: one trained member per order. -/
def ensembleFit (tr : String → String) (vw : List Char) (ngrams : List ℕ)
    (sentences : List PySentence) : List (ℕ × ProbTable) :=
  ngrams.map (fun n => (n, ngramFit tr vw n sentences))

/-- Python `NgramCharTypeModels.get_dist`: each member of order `n` is queried on
`chars[1-n:]` (the rightmost `n-1` characters) and the results are averaged
per category. -/
def ensembleGetDist (models : List (ℕ × ProbTable)) (chars : List PyChar) :
    CharType → ℚ :=
  fun ct =>
    ((models.map (fun nm =>
        nm.2 ((pyDropInt chars (1 - (nm.1 : ℤ))).map (·.chartype)) ct)).sum)
      / (models.length : ℚ)

/-! ## `language_generator.py`: constants and fit -/

/-- Python `E = 1e-7`, as a rational (used in the decidable validity check). -/
def epsQ : ℚ := 1 / 10000000

/-- Python `E = 1e-7`, as a real (used inside the logarithms). -/
noncomputable def epsR : ℝ := (epsQ : ℝ)

/-- Python `DIST_POS_RATIO = 1.0` (renamed: weight of the positional term). -/
def distPosWeight : ℝ := 1

/-- Python `NORM_SCALE = 2.0`. -/
def normScale : ℝ := 2

/-- Python `SYMBOL_MAGNIFICATION = 3.0`. -/
def symbolMagnification : ℚ := 3

/-- Python `DIST_CHARTYPE_RATIO = 1.0` (renamed: weight of the category term). -/
def distChartypeWeight : ℝ := 1

/-- Python `DIST_USED_RATIO = 0.1` (renamed: weight of the usage-balance term). -/
noncomputable def distUsedWeight : ℝ := (1 : ℝ) / 10

/-- Python `DIST_LEFT_RATIO = 1.0` (renamed: weight of the remaining-balance
term). -/
def distLeftWeight : ℝ := 1

/-- Python `scipy.stats.norm.pdf(i, loc=0, scale=NORM_SCALE)`: the Gaussian
density at integer distance `i` (the precomputed `dist_pos` table). -/
noncomputable def distPos (i : ℕ) : ℝ :=
  Real.exp (-((i : ℝ) ^ 2) / (2 * normScale ^ 2)) / (normScale * Real.sqrt (2 * Real.pi))

/-- The session state created by `LanguageGenerator.fit` and mutated by
`generate`: the wrapped source sentences, per-source cursors, emitted and
remaining counts, the symbol-gap threshold and the trained ensemble. -/
structure FitState where
  sentences : List PySentence
  currIds : List ℤ
  numUsed : List ℕ
  numLeft : List ℤ
  threshSymbol : ℚ
  models : List (ℕ × ProbTable)

/-- Number of `SYMBOL`-category characters in a list of sentences. -/
def symbolCount (sentences : List PySentence) : ℕ :=
  (sentences.flatten.filter (fun c => c.chartype = CharType.SYMBOL)).length

/-- Python `LanguageGenerator.fit`.  `_calc_symbol_threshold` divides by the
number of `SYMBOL` characters in the corpus; when there is none the Python
division `num_chars / num_symbols` raises `ZeroDivisionError` (there is no
fallback in the code). -/
def fitE (tr : String → String) (vw : List Char) (corpus : List String) :
    Except PyErr FitState :=
  let sentences := corpus.map (fun s => mkSentence tr vw s 2 1)
  if symbolCount sentences = 0 then .error .zeroDivisionError
  else .ok
    { sentences := sentences
      currIds := sentences.map (fun _ => 1)
      numUsed := sentences.map (fun _ => 0)
      numLeft := sentences.map (fun s => (contentLen s : ℤ))
      threshSymbol := ((sentences.map contentLen).sum : ℚ) / (symbolCount sentences : ℚ)
      models := ensembleFit tr vw [2, 3] sentences }

/-! ## `generate` -/

/-- The loop state: the fit-time session state plus the output sentence
being built. -/
structure GenState extends FitState where
  output : PySentence

/-- Python `_init_scores`: `-inf` (⊥) at every position at or before the source's
cursor, `0.0` elsewhere. -/
def initScores (st : GenState) : List (List (WithBot ℝ)) :=
  (st.sentences.zip st.currIds).map (fun p =>
    (List.range p.1.length).map
      (fun (i : ℕ) => if (i : ℤ) ≤ p.2 then ⊥ else some (0 : ℝ)))

/-- Python `_calc_symbol_magnification`: the number of output characters emitted
since the last `SYMBOL` or `EOS` (scanning the output right to left). -/
def runLenSinceSymbol (out : PySentence) : ℕ :=
  (out.reverse.takeWhile
    (fun c => ¬ (c.chartype = CharType.SYMBOL ∨ c.chartype = CharType.EOS))).length

/-- Python `_get_chartype_dist`: the ensemble prediction conditioned on the last
two output characters, with the `SYMBOL` entry multiplied by the
magnification factor. -/
def chartypeDist (st : GenState) : CharType → ℚ :=
  let mag : ℚ :=
    if (runLenSinceSymbol st.output : ℚ) > st.threshSymbol then symbolMagnification else 1
  let ens := ensembleGetDist st.models (pyDropInt st.output (-2))
  fun ct => if ct = CharType.SYMBOL then ens ct * mag else ens ct

/-- The four-term log-score added to one eligible position
(`_update_scores` inner loop): `dc`, `du`, `dl` are the category, usage and
remaining probabilities, `i` the offset from the cursor. -/
noncomputable def charScore (dc du dl : ℚ) (i : ℕ) : ℝ :=
  Real.log (distPos i + epsR) * distPosWeight
  + Real.log ((dc : ℝ) + epsR) * distChartypeWeight
  + Real.log ((du : ℝ) + epsR) * distUsedWeight
  + Real.log ((dl : ℝ) + epsR) * distLeftWeight

/-- One source's row update in `_update_scores`: for `i, char` over
`sentence[curr:]`, add the log-score at position `i + curr` (Python index,
wrapping once from the end when negative). -/
noncomputable def updateRow (dch : CharType → ℚ) (du dl : ℚ) (sentence : PySentence)
    (curr : ℤ) (row : List (WithBot ℝ)) : List (WithBot ℝ) :=
  ((pyDropInt sentence curr).enum).foldl
    (fun r p =>
      let k := pyIdxNat r.length ((p.1 : ℤ) + curr)
      r.set k (r.getD k ⊥ + (charScore (dch p.2.chartype) du dl p.1 : WithBot ℝ)))
    row

/-- The pure part of `_update_scores` once the three distributions are
known. -/
noncomputable def updateScoresCore (st : GenState) (dch : CharType → ℚ)
    (dused dleft : List ℚ) (scores : List (List (WithBot ℝ))) :
    List (List (WithBot ℝ)) :=
  (List.range st.sentences.length).foldl
    (fun sc sid =>
      sc.set sid
        (updateRow dch (dused.getD sid 0) (dleft.getD sid 0)
          (st.sentences.getD sid []) (st.currIds.getD sid 0) (sc.getD sid [])))
    scores

/-- The usage-balance distribution of `_update_scores`:
`inv = max(num_used) + 1 - num` normalised over its own sum. -/
def distUsedList (numUsed : List ℕ) : List ℚ :=
  (numUsed.map (fun n => numUsed.foldl max 0 + 1 - n)).map
    (fun n => (n : ℚ) / (((numUsed.map (fun n => numUsed.foldl max 0 + 1 - n)).sum : ℕ) : ℚ))

/-- The remaining-balance distribution of `_update_scores`:
`num / sum(num_left)` per source. -/
def distLeftList (numLeft : List ℤ) : List ℚ :=
  numLeft.map (fun n => (n : ℚ) / ((numLeft.sum : ℤ) : ℚ))

/-- Python `_update_scores`.  The division `num / sum(self.num_left)` raises
`ZeroDivisionError` when the remaining counts sum to zero; `math.log`
raises `ValueError` when a `dist_left` entry makes its argument
non-positive (the other three log arguments are provably positive: the
Gaussian density, the smoothed ensemble probabilities and the usage
weights are all positive).  The `ValueError` check only fires for sources
whose eligible slice is non-empty, as in the Python loop. -/
noncomputable def updateScores (st : GenState) :
    Except PyErr (List (List (WithBot ℝ))) :=
  if st.numLeft.sum = 0 then .error .zeroDivisionError
  else
    if (List.range st.sentences.length).any (fun sid =>
        decide (pyDropInt (st.sentences.getD sid []) (st.currIds.getD sid 0) ≠ [])
        && decide ((distLeftList st.numLeft).getD sid 0 + epsQ ≤ 0)) then
      .error .valueError
    else
      .ok (updateScoresCore st (chartypeDist st) (distUsedList st.numUsed)
        (distLeftList st.numLeft) (initScores st))

/-- Python `_extract_next_char_index`: scan sources in order and positions in
increasing order, keeping the first pair whose score is strictly greater
than the current best (initialised to `-inf`). -/
noncomputable def extractNextCharIndex (scores : List (List (WithBot ℝ))) : ℕ × ℕ :=
  (scores.enum.foldl
    (fun acc row =>
      row.2.enum.foldl
        (fun a q => if a.2 < q.2 then ((row.1, q.1), q.2) else a) acc)
    ((0, 0), (⊥ : WithBot ℝ))).1

/-- The pure tail of one `generate` loop iteration once the score table is
known: select, emit the chosen character, update the chosen source's
counters and re-synchronise every cursor through the ratio
`(char_id + 1) / len(chosen)`. -/
noncomputable def genStepPost (st : GenState) (scores : List (List (WithBot ℝ))) :
    GenState :=
  let sel := extractNextCharIndex scores
  let chosen := st.sentences.getD sel.1 []
  let ch := chosen.getD sel.2 (mkChar (fun s => s) [] bosToken)
  let frac : ℚ := ((sel.2 : ℚ) + 1) / (chosen.length : ℚ)
  { st with
    output := st.output ++ [ch]
    numUsed := st.numUsed.set sel.1 (st.numUsed.getD sel.1 0 + 1)
    numLeft := st.numLeft.set sel.1 (st.numLeft.getD sel.1 0 - 1)
    currIds := st.sentences.map (fun s => pyRound ((s.length : ℚ) * frac) - 1) }

/-- One iteration of the `generate` loop body: score (which may raise),
then select, emit and update. -/
noncomputable def genStep (st : GenState) : Except PyErr GenState :=
  (updateScores st).map (genStepPost st)

/-- The category of `output[-1]`. -/
def lastChartype (out : PySentence) : CharType :=
  (pyGetInt out (-1) (mkChar (fun s => s) [] bosToken)).chartype

/-- The `while output[-1].chartype != CharType.EOS` loop, with fuel. -/
noncomputable def generateLoop : ℕ → GenState → Except PyErr GenState
  | 0, _ => .error .outOfFuel
  | n + 1, st =>
    if lastChartype st.output ≠ CharType.EOS then
      genStep st >>= generateLoop n
    else .ok st

/-- Python `''.join([char.char for char in output.get_chars()])`. -/
def contentString (out : PySentence) : String :=
  String.join ((contentChars out).map (·.char))

/-- Python `LanguageGenerator.generate` on a fitted engine: start from
`Sentence('', add_bos=2)`, loop, and return the joined content characters
together with the mutated session state. -/
noncomputable def generateFull (tr : String → String) (vw : List Char)
    (st : FitState) (fuel : ℕ) : Except PyErr (String × FitState) :=
  (generateLoop fuel { st with output := mkSentence tr vw "" 2 0 }).map
    (fun st' => (contentString st'.output, st'.toFitState))

/-- The engine as a whole: before `fit` every attribute is `None`; calling
`generate` then builds the output sentence, enters the loop and fails with
`TypeError` as soon as `_init_scores` iterates `self.sentences = None`
(there is no explicit precondition check in the code). -/
noncomputable def generateE (tr : String → String) (vw : List Char)
    (engine : Option FitState) (fuel : ℕ) : Except PyErr (String × FitState) :=
  match engine with
  | none => if fuel = 0 then .error .outOfFuel else .error .typeError
  | some st => generateFull tr vw st fuel

/-! ## Concrete instantiations of the out-of-scope collaborators -/

/-- Modelled from the spec: the out-of-scope ASCII transliteration
(`transliterate(text) -> ascii_text`, §1) strips diacritics and maps to
the nearest Latin letters; on the plain-ASCII corpora used in the concrete
runs below it is the identity. -/
def idTranslit : String → String := fun s => s

/-- Modelled from the spec: the out-of-scope vowel reference table (§6, one
lowercase letter per line); instantiated with the five Latin vowels. -/
def stdVowels : List Char := ['a', 'e', 'i', 'o', 'u']

/-! ## The selection scan (`_extract_next_char_index`) -/

/-- One comparison of the selection scan: keep the incoming pair exactly
when its score is strictly greater than the best so far. -/
noncomputable def extractStep (a q : (ℕ × ℕ) × WithBot ℝ) : (ℕ × ℕ) × WithBot ℝ :=
  if a.2 < q.2 then q else a

/-- The score table flattened in scan order: sources in original order,
positions in increasing order within each source. -/
def scanPairs (scores : List (List (WithBot ℝ))) : List ((ℕ × ℕ) × WithBot ℝ) :=
  (scores.enum.map (fun p => p.2.enum.map (fun q => ((p.1, q.1), q.2)))).flatten

/-! ## Concrete run 1: `fit(["", " "])` -- `generate` raises

The corpus is a non-empty sentence list containing one `SYMBOL` character,
so it satisfies C1's hypothesis and `fit` succeeds.  The first loop
iteration emits the space (its score strictly dominates the two
end-markers), leaving every remaining-count at zero; the second iteration
then divides by `sum(num_left) = 0` and raises `ZeroDivisionError`. -/

def r1sentA : PySentence := mkSentence idTranslit stdVowels "" 2 1

def r1sentB : PySentence := mkSentence idTranslit stdVowels " " 2 1

def r1fit : FitState :=
  { sentences := [r1sentA, r1sentB]
    currIds := [1, 1]
    numUsed := [0, 0]
    numLeft := [0, 1]
    threshSymbol := 1
    models := ensembleFit idTranslit stdVowels [2, 3] [r1sentA, r1sentB] }

def r1gen0 : GenState := { r1fit with output := mkSentence idTranslit stdVowels "" 2 0 }

/-- The iteration-1 score table of run 1 (entries carry the category,
usage, remaining probabilities and the offset from the cursor). -/
noncomputable def r1S : List (List (WithBot ℝ)) :=
  [[⊥, ⊥, ((0 + charScore (2/11) (1/2) 0 1 : ℝ) : WithBot ℝ)],
   [⊥, ⊥, ((0 + charScore (6/11) (1/2) 1 1 : ℝ) : WithBot ℝ),
    ((0 + charScore (2/11) (1/2) 1 2 : ℝ) : WithBot ℝ)]]

def r1gen1 : GenState :=
  { r1fit with
    output := mkSentence idTranslit stdVowels "" 2 0 ++ [mkChar idTranslit stdVowels " "]
    numUsed := [0, 1]
    numLeft := [0, 0]
    currIds := [1, 2] }

/-- Predicate: `fit` succeeds on this corpus. -/
def fitSucceeds (tr : String → String) (vw : List Char) (corpus : List String) : Prop :=
  ∃ st, fitE tr vw corpus = .ok st

/-- Predicate: `generate` after a successful `fit` returns normally for some fuel. -/
def generateAfterFitReturns (tr : String → String) (vw : List Char)
    (corpus : List String) : Prop :=
  ∃ st fuel res, fitE tr vw corpus = .ok st ∧ generateFull tr vw st fuel = .ok res

/-! ## Concrete run 2: `fit(["abc efg", ""])` -- a cursor decreases

Iteration 1 selects position 2 of source 0 (the `a`; closest position and
highest category probability).  The proportional re-synchronisation then
maps source 1's cursor to `round(3 * 3/10) - 1 = 0`, strictly below its
previous value 1. -/

def r2sentA : PySentence := mkSentence idTranslit stdVowels "abc efg" 2 1

def r2sentB : PySentence := mkSentence idTranslit stdVowels "" 2 1

def r2fit : FitState :=
  { sentences := [r2sentA, r2sentB]
    currIds := [1, 1]
    numUsed := [0, 0]
    numLeft := [7, 0]
    threshSymbol := 7
    models := ensembleFit idTranslit stdVowels [2, 3] [r2sentA, r2sentB] }

def r2gen0 : GenState := { r2fit with output := mkSentence idTranslit stdVowels "" 2 0 }

/-- The iteration-1 score table of run 2. -/
noncomputable def r2S : List (List (WithBot ℝ)) :=
  [[⊥, ⊥,
    ((0 + charScore (2/11) (1/2) 1 1 : ℝ) : WithBot ℝ),
    ((0 + charScore (1/11) (1/2) 1 2 : ℝ) : WithBot ℝ),
    ((0 + charScore (1/11) (1/2) 1 3 : ℝ) : WithBot ℝ),
    ((0 + charScore (1/11) (1/2) 1 4 : ℝ) : WithBot ℝ),
    ((0 + charScore (2/11) (1/2) 1 5 : ℝ) : WithBot ℝ),
    ((0 + charScore (1/11) (1/2) 1 6 : ℝ) : WithBot ℝ),
    ((0 + charScore (1/11) (1/2) 1 7 : ℝ) : WithBot ℝ),
    ((0 + charScore (2/11) (1/2) 1 8 : ℝ) : WithBot ℝ)],
   [⊥, ⊥, ((0 + charScore (2/11) (1/2) 0 1 : ℝ) : WithBot ℝ)]]

def r2gen1 : GenState :=
  { r2fit with
    output := mkSentence idTranslit stdVowels "" 2 0 ++ [mkChar idTranslit stdVowels "a"]
    numUsed := [1, 0]
    numLeft := [6, 0]
    currIds := [2, 0] }

/-- The cursor pair before and after the first `generate` iteration. -/
noncomputable def afterFitStep (tr : String → String) (vw : List Char)
    (corpus : List String) : Option (List ℤ × List ℤ) :=
  match fitE tr vw corpus with
  | .error _ => none
  | .ok st =>
    match genStep { st with output := mkSentence tr vw "" 2 0 } with
    | .error _ => none
    | .ok st' => some (st.currIds, st'.currIds)

/-! ## Concrete run 3: `fit(["a", " "])` -- a terminating `generate`

Iteration 1 emits the `a` (source 0, position 2); iteration 2 selects
source 1's end-marker (its usage- and remaining-balance terms strictly
dominate source 0's), so the loop terminates, returning `"a"` and leaving
the mutated session state behind. -/

def r3sentA : PySentence := mkSentence idTranslit stdVowels "a" 2 1

def r3sentB : PySentence := mkSentence idTranslit stdVowels " " 2 1

def r3fit : FitState :=
  { sentences := [r3sentA, r3sentB]
    currIds := [1, 1]
    numUsed := [0, 0]
    numLeft := [1, 1]
    threshSymbol := 2
    models := ensembleFit idTranslit stdVowels [2, 3] [r3sentA, r3sentB] }

def r3gen0 : GenState := { r3fit with output := mkSentence idTranslit stdVowels "" 2 0 }

/-- The iteration-1 score table of run 3. -/
noncomputable def r3S1 : List (List (WithBot ℝ)) :=
  [[⊥, ⊥, ((0 + charScore (2/11) (1/2) (1/2) 1 : ℝ) : WithBot ℝ),
    ((0 + charScore (1/11) (1/2) (1/2) 2 : ℝ) : WithBot ℝ)],
   [⊥, ⊥, ((0 + charScore (2/11) (1/2) (1/2) 1 : ℝ) : WithBot ℝ),
    ((0 + charScore (1/11) (1/2) (1/2) 2 : ℝ) : WithBot ℝ)]]

def r3gen1 : GenState :=
  { r3fit with
    output := mkSentence idTranslit stdVowels "" 2 0 ++ [mkChar idTranslit stdVowels "a"]
    numUsed := [1, 0]
    numLeft := [0, 1]
    currIds := [2, 2] }

/-- The iteration-2 score table of run 3. -/
noncomputable def r3S2 : List (List (WithBot ℝ)) :=
  [[⊥, ⊥, ⊥, ((0 + charScore (1/3) (1/3) 0 1 : ℝ) : WithBot ℝ)],
   [⊥, ⊥, ⊥, ((0 + charScore (1/3) (2/3) 1 1 : ℝ) : WithBot ℝ)]]

def r3gen2 : GenState :=
  { r3fit with
    output := mkSentence idTranslit stdVowels "" 2 0
      ++ [mkChar idTranslit stdVowels "a"] ++ [mkChar idTranslit stdVowels eosToken]
    numUsed := [1, 1]
    numLeft := [0, 0]
    currIds := [3, 3] }

/-- The end-of-run session state of run 3. -/
def r3fin : FitState :=
  { r3fit with currIds := [3, 3], numUsed := [1, 1], numLeft := [0, 0] }

/-! ## Counts are positive and distributions are proper -/

/-- Any fold whose step never decreases the table pointwise keeps `initModel`'s
seed of 1 as a lower bound. -/
theorem foldl_count_le {β : Type} (f : CountTable → β → CountTable)
    (hf : ∀ c b t, c t ≤ f c b t) (l : List β) (c : CountTable) (t : List CharType) :
    c t ≤ (l.foldl f c) t := by
  induction l generalizing c with
  | nil => exact le_rfl
  | cons b l ih => exact le_trans (hf c b t) (ih (f c b))

theorem bumpCount_le (c : CountTable) (key t : List CharType) :
    c t ≤ bumpCount c key t := by
  unfold bumpCount
  split <;> omega

theorem countSentence_le (n : ℕ) (c : CountTable) (cts : List CharType)
    (t : List CharType) : c t ≤ countSentence n c cts t :=
  foldl_count_le _ (fun c i t => bumpCount_le c _ t) _ c t

/-- Every count of a trained table is at least the seed 1. -/
theorem one_le_countChartypes (n : ℕ) (ss : List PySentence) (t : List CharType) :
    1 ≤ countChartypes n initModel ss t :=
  foldl_count_le _ (fun c s t => countSentence_le n c _ t) ss initModel t

/-- The per-context total of a trained count table is positive. -/
theorem total_pos (n : ℕ) (ss : List PySentence) (ctx : List CharType) :
    0 < (CharType.all.map (fun x => countChartypes n initModel ss (ctx ++ [x]))).sum := by
  have h := one_le_countChartypes n ss (ctx ++ [CharType.BOS])
  simp only [CharType.all, List.map_cons, List.map_nil, List.sum_cons, List.sum_nil]
  omega

/-- Every entry of a trained probability table is strictly positive. -/
theorem ngramFit_pos (tr : String → String) (vw : List Char) (n : ℕ)
    (corpus : List PySentence) (ctx : List CharType) (ct : CharType) :
    0 < ngramFit tr vw n corpus ctx ct := by
  unfold ngramFit convertCountToProb
  have h1 : (0 : ℚ) < (countChartypes n initModel (corpus.map (modelWrap tr vw n)) (ctx ++ [ct]) : ℚ) := by
    exact_mod_cast one_le_countChartypes n _ (ctx ++ [ct])
  have h2 : (0 : ℚ) < ((CharType.all.map
      (fun x => countChartypes n initModel (corpus.map (modelWrap tr vw n)) (ctx ++ [x]))).sum : ℚ) := by
    exact_mod_cast total_pos n _ ctx
  exact div_pos h1 h2

/-- The five entries of a trained probability table sum to exactly 1. -/
theorem ngramFit_sum (tr : String → String) (vw : List Char) (n : ℕ)
    (corpus : List PySentence) (ctx : List CharType) :
    (CharType.all.map (fun ct => ngramFit tr vw n corpus ctx ct)).sum = 1 := by
  unfold ngramFit convertCountToProb
  have hne : ((CharType.all.map
      (fun x => countChartypes n initModel (corpus.map (modelWrap tr vw n)) (ctx ++ [x]))).sum : ℚ) ≠ 0 := by
    have h2 : (0 : ℚ) < ((CharType.all.map
        (fun x => countChartypes n initModel (corpus.map (modelWrap tr vw n)) (ctx ++ [x]))).sum : ℚ) := by
      exact_mod_cast total_pos n _ ctx
    exact ne_of_gt h2
  simp only [CharType.all, List.map_cons, List.map_nil, List.sum_cons, List.sum_nil,
    add_zero] at hne ⊢
  push_cast at hne ⊢
  field_simp

/-- C4.  For every N-gram model of order `n` trained by `fit` on any corpus
and every context of `n−1` categories, the predicted distribution is
strictly positive on each of the 5 categories and sums to 1. -/
theorem claim_C4_ngram_dist_proper (tr : String → String) (vw : List Char)
    (n : ℕ) (corpus : List PySentence) (ctx : List CharType)
    (hctx : ctx.length = n - 1) :
    (∀ ct, 0 < ngramFit tr vw n corpus ctx ct) ∧
    (CharType.all.map (fun ct => ngramFit tr vw n corpus ctx ct)).sum = 1 :=
  ⟨fun ct => ngramFit_pos tr vw n corpus ctx ct, ngramFit_sum tr vw n corpus ctx⟩

/-- Witness for C4 at order 2, corpus `["a", " "]`, context `[BOS]`. -/
theorem claim_C4_witness :
    ([CharType.BOS] : List CharType).length = 2 - 1 ∧
    0 < ngramFit idTranslit stdVowels 2
      [mkSentence idTranslit stdVowels "a" 2 1] [CharType.BOS] CharType.SYMBOL ∧
    (CharType.all.map (fun ct => ngramFit idTranslit stdVowels 2
      [mkSentence idTranslit stdVowels "a" 2 1] [CharType.BOS] ct)).sum = 1 :=
  ⟨by decide,
   (claim_C4_ngram_dist_proper idTranslit stdVowels 2 _ _ (by decide)).1 CharType.SYMBOL,
   (claim_C4_ngram_dist_proper idTranslit stdVowels 2 _ _ (by decide)).2⟩

/-- C5.  The fitted `{2,3}` ensemble queried on a 2-character context is
the unweighted mean of the order-2 member on the rightmost 1 category and
the order-3 member on both categories; the result again sums to 1. -/
theorem claim_C5_ensemble_mean (tr : String → String) (vw : List Char)
    (ss : List PySentence) (x y : PyChar) :
    (∀ ct, ensembleGetDist (ensembleFit tr vw [2, 3] ss) [x, y] ct
      = (ngramFit tr vw 2 ss [y.chartype] ct
         + ngramFit tr vw 3 ss [x.chartype, y.chartype] ct) / 2) ∧
    (CharType.all.map
      (fun ct => ensembleGetDist (ensembleFit tr vw [2, 3] ss) [x, y] ct)).sum = 1 := by
  have h1 : ∀ ct, ensembleGetDist (ensembleFit tr vw [2, 3] ss) [x, y] ct
      = (ngramFit tr vw 2 ss [y.chartype] ct
         + ngramFit tr vw 3 ss [x.chartype, y.chartype] ct) / 2 := by
    intro ct
    simp only [ensembleGetDist, ensembleFit, List.map_cons, List.map_nil,
      List.sum_cons, List.sum_nil, List.length_cons, List.length_nil]
    norm_num [pyDropInt]
  refine ⟨h1, ?_⟩
  have h2 := ngramFit_sum tr vw 2 ss [y.chartype]
  have h3 := ngramFit_sum tr vw 3 ss [x.chartype, y.chartype]
  simp only [CharType.all, List.map_cons, List.map_nil, List.sum_cons, List.sum_nil,
    add_zero] at h2 h3 ⊢
  rw [h1 CharType.BOS, h1 CharType.EOS, h1 CharType.CONSONANT, h1 CharType.VOWEL,
    h1 CharType.SYMBOL]
  linarith [h2, h3]

/-- The begin-marker token classifies to `BOS` whenever the transliteration
fixes it. -/
theorem classify_bosToken (tr : String → String) (vw : List Char)
    (hb : tr bosToken = bosToken) : classify tr vw bosToken = CharType.BOS := by
  unfold classify
  rw [hb, if_pos rfl]

/-- The end-marker token classifies to `EOS` whenever the transliteration
fixes it. -/
theorem classify_eosToken (tr : String → String) (vw : List Char)
    (he : tr eosToken = eosToken) : classify tr vw eosToken = CharType.EOS := by
  unfold classify
  rw [he, if_neg (by decide), if_pos rfl]

/-- C6.  The order-`n` member model of the engine re-wraps the already
engine-wrapped sentence, so the counted category sequence carries
`(n-1)+2` begin-markers in front and 2 end-markers at the end. -/
theorem claim_C6_nested_padding (tr : String → String) (vw : List Char)
    (hb : tr bosToken = bosToken) (he : tr eosToken = eosToken)
    (n : ℕ) (s : String) :
    (modelWrap tr vw n (mkSentence tr vw s 2 1)).map (·.chartype)
      = List.replicate ((n - 1) + 2) CharType.BOS
        ++ s.toList.map (fun c => classify tr vw (String.singleton c))
        ++ List.replicate 2 CharType.EOS := by
  unfold modelWrap mkSentence
  simp only [List.map_append, List.map_replicate, List.map_map, List.map_cons,
    List.map_nil, List.replicate_add, List.append_assoc]
  simp [mkChar, Function.comp, classify_bosToken tr vw hb, classify_eosToken tr vw he,
    List.replicate_succ]

/-- Witness for C6 at `n = 2`, raw sentence `"a"`. -/
theorem claim_C6_witness :
    idTranslit bosToken = bosToken ∧ idTranslit eosToken = eosToken ∧
    (modelWrap idTranslit stdVowels 2 (mkSentence idTranslit stdVowels "a" 2 1)).map
        (·.chartype)
      = List.replicate ((2 - 1) + 2) CharType.BOS
        ++ ("a".toList.map (fun c => classify idTranslit stdVowels (String.singleton c)))
        ++ List.replicate 2 CharType.EOS :=
  ⟨rfl, rfl, claim_C6_nested_padding idTranslit stdVowels rfl rfl 2 "a"⟩

/-- C7.  The sentinel tokens classify to the marker categories, and --
provided the transliteration maps no other string onto a sentinel token --
no other string classifies to a marker category. -/
theorem claim_C7_classify_markers (tr : String → String) (vw : List Char)
    (hb : tr bosToken = bosToken) (he : tr eosToken = eosToken)
    (hob : ∀ u, u ≠ bosToken → tr u ≠ bosToken)
    (hoe : ∀ u, u ≠ eosToken → tr u ≠ eosToken) (s : String) :
    classify tr vw bosToken = CharType.BOS ∧
    classify tr vw eosToken = CharType.EOS ∧
    (s ≠ bosToken → s ≠ eosToken →
      classify tr vw s ≠ CharType.BOS ∧ classify tr vw s ≠ CharType.EOS) := by
  refine ⟨classify_bosToken tr vw hb, classify_eosToken tr vw he, fun h1 h2 => ?_⟩
  unfold classify
  rw [if_neg (hob s h1), if_neg (hoe s h2)]
  split
  · exact ⟨by decide, by decide⟩
  · split
    · exact ⟨by decide, by decide⟩
    · exact ⟨by decide, by decide⟩

/-- Witness for C7: under the identity transliteration the sentinel tokens
are markers and the string `"x"` is not. -/
theorem claim_C7_witness :
    classify idTranslit stdVowels bosToken = CharType.BOS ∧
    classify idTranslit stdVowels eosToken = CharType.EOS ∧
    (classify idTranslit stdVowels "x" ≠ CharType.BOS ∧
     classify idTranslit stdVowels "x" ≠ CharType.EOS) := by
  have h := claim_C7_classify_markers idTranslit stdVowels rfl rfl
    (fun u h => h) (fun u h => h) "x"
  exact ⟨h.1, h.2.1, h.2.2 (by decide) (by decide)⟩

/-- The nested selection loops are the fold of `extractStep` over the
flattened scan order. -/
theorem extract_eq_scan (scores : List (List (WithBot ℝ))) :
    extractNextCharIndex scores
      = ((scanPairs scores).foldl extractStep ((0, 0), ⊥)).1 := by
  unfold extractNextCharIndex scanPairs extractStep
  rw [List.foldl_flatten, List.foldl_map]
  simp only [List.foldl_map]

/-- Once the best is `p` and every remaining score is at most `p`'s, the
scan keeps `p`. -/
theorem foldl_extractStep_stay (L : List ((ℕ × ℕ) × WithBot ℝ))
    (p : (ℕ × ℕ) × WithBot ℝ) (h : ∀ q ∈ L, q.2 ≤ p.2) :
    L.foldl extractStep p = p := by
  induction L with
  | nil => rfl
  | cons q T ih =>
    have hq : ¬ p.2 < q.2 := not_lt.mpr (h q (List.mem_cons_self q T))
    simp only [List.foldl_cons, extractStep, if_neg hq]
    exact ih (fun r hr => h r (List.mem_cons_of_mem q hr))

/-- If the scan order decomposes as `L1 ++ p :: L2` with every `L1` score
strictly below `p`'s, the accumulator strictly below `p`'s, and every `L2`
score at most `p`'s, the scan returns exactly `p`. -/
theorem foldl_extractStep_pick (L1 L2 : List ((ℕ × ℕ) × WithBot ℝ))
    (p acc : (ℕ × ℕ) × WithBot ℝ) (hacc : acc.2 < p.2)
    (h1 : ∀ q ∈ L1, q.2 < p.2) (h2 : ∀ q ∈ L2, q.2 ≤ p.2) :
    (L1 ++ p :: L2).foldl extractStep acc = p := by
  induction L1 generalizing acc with
  | nil =>
    simp only [List.nil_append, List.foldl_cons, extractStep, if_pos hacc]
    exact foldl_extractStep_stay L2 p h2
  | cons q T ih =>
    simp only [List.cons_append, List.foldl_cons]
    have hq : q.2 < p.2 := h1 q (List.mem_cons_self q T)
    have hstep : (extractStep acc q).2 < p.2 := by
      unfold extractStep
      split
      · exact hq
      · exact hacc
    exact ih (extractStep acc q) hstep (fun r hr => h1 r (List.mem_cons_of_mem q hr))

/-- Characterisation of the selection fold: either no score ever beats the
accumulator, or the result is the first list element attaining the running
maximum. -/
theorem foldl_extractStep_spec (L : List ((ℕ × ℕ) × WithBot ℝ))
    (acc : (ℕ × ℕ) × WithBot ℝ) :
    (L.foldl extractStep acc = acc ∧ ∀ q ∈ L, q.2 ≤ acc.2) ∨
    (∃ k, ∃ hk : k < L.length,
      L.foldl extractStep acc = L.get ⟨k, hk⟩ ∧
      acc.2 < (L.get ⟨k, hk⟩).2 ∧
      (∀ q ∈ L, q.2 ≤ (L.get ⟨k, hk⟩).2) ∧
      (∀ k', ∀ hk' : k' < L.length, k' < k →
        (L.get ⟨k', hk'⟩).2 < (L.get ⟨k, hk⟩).2)) := by
  induction L generalizing acc with
  | nil => exact Or.inl ⟨rfl, by simp⟩
  | cons p T ih =>
    by_cases h : acc.2 < p.2
    · simp only [List.foldl_cons, extractStep, if_pos h]
      rcases ih p with ⟨heq, hall⟩ | ⟨k, hk, heq, hgt, hall, hbef⟩
      · refine Or.inr ⟨0, by simp, by simpa using heq, by simpa using h, ?_, ?_⟩
        · intro q hq
          rcases List.mem_cons.mp hq with rfl | hq
          · simp
          · simpa using hall q hq
        · intro k' hk' hlt
          omega
      · refine Or.inr ⟨k + 1, by simpa using Nat.succ_lt_succ hk, by simpa using heq,
          lt_trans h (by simpa using hgt), ?_, ?_⟩
        · intro q hq
          rcases List.mem_cons.mp hq with rfl | hq
          · simpa using le_of_lt hgt
          · simpa using hall q hq
        · intro k' hk' hlt
          match k' with
          | 0 => simpa using hgt
          | k'' + 1 =>
            have := hbef k'' (Nat.lt_of_succ_lt_succ hk') (Nat.lt_of_succ_lt_succ hlt)
            simpa using this
    · simp only [List.foldl_cons, extractStep, if_neg h]
      rcases ih acc with ⟨heq, hall⟩ | ⟨k, hk, heq, hgt, hall, hbef⟩
      · refine Or.inl ⟨heq, ?_⟩
        intro q hq
        rcases List.mem_cons.mp hq with rfl | hq
        · exact not_lt.mp h
        · exact hall q hq
      · refine Or.inr ⟨k + 1, by simpa using Nat.succ_lt_succ hk, by simpa using heq,
          by simpa using hgt, ?_, ?_⟩
        · intro q hq
          rcases List.mem_cons.mp hq with rfl | hq
          · simpa using le_trans (not_lt.mp h) (le_of_lt hgt)
          · simpa using hall q hq
        · intro k' hk' hlt
          match k' with
          | 0 => simpa using lt_of_le_of_lt (not_lt.mp h) hgt
          | k'' + 1 =>
            have := hbef k'' (Nat.lt_of_succ_lt_succ hk') (Nat.lt_of_succ_lt_succ hlt)
            simpa using this

/-- C8.  When at least one accumulated score is finite, the selection step
returns the coordinates of an entry attaining the greatest score, and every
entry strictly earlier in scan order (sources in original order, positions
increasing within a source) scores strictly below it. -/
theorem claim_C8_selection_first_max (scores : List (List (WithBot ℝ)))
    (h : ∃ p ∈ scanPairs scores, p.2 ≠ ⊥) :
    ∃ k, ∃ hk : k < (scanPairs scores).length,
      ((scanPairs scores).get ⟨k, hk⟩).1 = extractNextCharIndex scores ∧
      (∀ q ∈ scanPairs scores, q.2 ≤ ((scanPairs scores).get ⟨k, hk⟩).2) ∧
      (∀ k', ∀ hk' : k' < (scanPairs scores).length, k' < k →
        ((scanPairs scores).get ⟨k', hk'⟩).2 < ((scanPairs scores).get ⟨k, hk⟩).2) := by
  rcases foldl_extractStep_spec (scanPairs scores) ((0, 0), ⊥) with ⟨heq, hall⟩ |
    ⟨k, hk, heq, _, hall, hbef⟩
  · rcases h with ⟨p, hp, hpne⟩
    exact absurd (le_bot_iff.mp (hall p hp)) hpne
  · refine ⟨k, hk, ?_, hall, hbef⟩
    rw [extract_eq_scan, heq]

/-- Witness for C8 on the table `[[-inf, 1], [0]]`: the selection returns
`(0, 1)`, the position of the unique maximum. -/
theorem claim_C8_witness :
    ∃ k, ∃ hk : k < (scanPairs [[⊥, ((1 : ℝ) : WithBot ℝ)], [((0 : ℝ) : WithBot ℝ)]]).length,
      ((scanPairs [[⊥, ((1 : ℝ) : WithBot ℝ)], [((0 : ℝ) : WithBot ℝ)]]).get ⟨k, hk⟩).1
        = extractNextCharIndex [[⊥, ((1 : ℝ) : WithBot ℝ)], [((0 : ℝ) : WithBot ℝ)]] ∧
      (∀ q ∈ scanPairs [[⊥, ((1 : ℝ) : WithBot ℝ)], [((0 : ℝ) : WithBot ℝ)]],
        q.2 ≤ ((scanPairs [[⊥, ((1 : ℝ) : WithBot ℝ)], [((0 : ℝ) : WithBot ℝ)]]).get ⟨k, hk⟩).2) ∧
      (∀ k', ∀ hk' : k' < (scanPairs [[⊥, ((1 : ℝ) : WithBot ℝ)], [((0 : ℝ) : WithBot ℝ)]]).length,
        k' < k →
        ((scanPairs [[⊥, ((1 : ℝ) : WithBot ℝ)], [((0 : ℝ) : WithBot ℝ)]]).get ⟨k', hk'⟩).2
          < ((scanPairs [[⊥, ((1 : ℝ) : WithBot ℝ)], [((0 : ℝ) : WithBot ℝ)]]).get ⟨k, hk⟩).2) :=
  claim_C8_selection_first_max [[⊥, ((1 : ℝ) : WithBot ℝ)], [((0 : ℝ) : WithBot ℝ)]]
    ⟨((0, 1), ((1 : ℝ) : WithBot ℝ)), by
      rw [show scanPairs [[⊥, ((1 : ℝ) : WithBot ℝ)], [((0 : ℝ) : WithBot ℝ)]]
          = [((0, 0), (⊥ : WithBot ℝ)), ((0, 1), ((1 : ℝ) : WithBot ℝ)),
             ((1, 0), ((0 : ℝ) : WithBot ℝ))] from rfl]
      simp, by simp⟩

/-! ## Failure-mode claims: fit without symbols, generate before fit -/

/-- C3 counterexample.  `fit([""])` meets the claim's hypothesis (no
`SYMBOL` character anywhere in the corpus) yet `fit` does not complete:
`_calc_symbol_threshold` divides by zero, so `fit` raises
`ZeroDivisionError` instead of applying any fallback, and `generate` is
never reached. -/
theorem claim_C3_counterexample :
    symbolCount ([""].map (fun s => mkSentence idTranslit stdVowels s 2 1)) = 0 ∧
    fitE idTranslit stdVowels [""] = .error .zeroDivisionError := by
  constructor
  · decide
  · unfold fitE
    rw [if_pos (by decide)]

/-- C3 amended.  On every corpus with no `SYMBOL`-category character,
`fit` raises `ZeroDivisionError` (there is no fallback and `generate`
is never reached). -/
theorem claim_C3_amended (tr : String → String) (vw : List Char)
    (corpus : List String)
    (h : symbolCount (corpus.map (fun s => mkSentence tr vw s 2 1)) = 0) :
    fitE tr vw corpus = .error .zeroDivisionError := by
  unfold fitE
  rw [if_pos h]

/-- Witness for the amended C3 at the corpus `[""]`. -/
theorem claim_C3_witness :
    symbolCount ([""].map (fun s => mkSentence idTranslit stdVowels s 2 1)) = 0 ∧
    fitE idTranslit stdVowels [""] = .error .zeroDivisionError :=
  ⟨by decide, claim_C3_amended idTranslit stdVowels [""] (by decide)⟩

/-- C9 counterexample.  On a never-fitted engine (`self.sentences = None`),
`generate` fails with the incidental `TypeError` of iterating `None` in
`_init_scores` -- not with a deliberate precondition error. -/
theorem claim_C9_counterexample :
    generateE idTranslit stdVowels none 1 = .error .typeError ∧
    (.error .typeError : Except PyErr (String × FitState))
      ≠ .error .preconditionError := by
  constructor
  · rfl
  · intro h
    exact absurd (Except.error.inj h) (by decide)

/-- C9 amended.  `generate` before `fit` does fail on its first loop
iteration, but with the incidental `TypeError` from `self.sentences`
being `None`, not with a deliberate precondition check. -/
theorem claim_C9_amended (tr : String → String) (vw : List Char) (fuel : ℕ) :
    generateE tr vw none (fuel + 1) = .error .typeError := by
  unfold generateE
  rw [if_neg (by omega)]

/-! ## Structural lemmas about the score table -/

/-- A fold preserves any invariant its step preserves. -/
theorem foldl_preserve {α β : Type _} (P : α → Prop) (f : α → β → α)
    (hf : ∀ a b, P a → P (f a b)) (l : List β) (a : α) (ha : P a) :
    P (l.foldl f a) := by
  induction l generalizing a with
  | nil => exact ha
  | cons b l ih => exact ih (f a b) (hf a b ha)

/-- Value of `getD` after `set`: the written value when the write is in range at the
queried index, the old value otherwise. -/
theorem getD_set_general {α : Type _} (s : List α) (j i : ℕ) (x d : α) :
    (s.set j x).getD i d = if j = i ∧ j < s.length then x else s.getD i d := by
  rw [List.getD_eq_getElem?_getD, List.getD_eq_getElem?_getD]
  by_cases hj : j = i
  · subst hj
    by_cases hl : j < s.length
    · rw [List.getElem?_set_self hl]
      simp [hl]
    · rw [List.set_eq_of_length_le (by omega)]
      simp [hl]
  · rw [List.getElem?_set_ne hj]
    simp [hj]

/-- Writing `old + x` on top of a row keeps every `⊥` entry `⊥`. -/
theorem getD_set_add_bot (r : List (WithBot ℝ)) (k' k : ℕ) (x : WithBot ℝ)
    (h : r.getD k ⊥ = ⊥) :
    (r.set k' (r.getD k' ⊥ + x)).getD k ⊥ = ⊥ := by
  rw [getD_set_general]
  split
  · next hcond =>
    rw [hcond.1, h]
    simp
  · exact h

/-- Lemma: `updateRow` only ever adds to an entry, so a `-inf` entry stays
`-inf`. -/
theorem updateRow_preserves_bot (dch : CharType → ℚ) (du dl : ℚ)
    (sentence : PySentence) (curr : ℤ) (row : List (WithBot ℝ)) (k : ℕ)
    (h : row.getD k ⊥ = ⊥) :
    (updateRow dch du dl sentence curr row).getD k ⊥ = ⊥ := by
  unfold updateRow
  refine foldl_preserve (fun r : List (WithBot ℝ) => r.getD k ⊥ = ⊥) _
    (fun r p hr => ?_) ((pyDropInt sentence curr).enum) row h
  exact getD_set_add_bot r _ k _ hr

/-- Lemma: `updateRow` never changes the length of a row. -/
theorem updateRow_length (dch : CharType → ℚ) (du dl : ℚ) (sentence : PySentence)
    (curr : ℤ) (row : List (WithBot ℝ)) :
    (updateRow dch du dl sentence curr row).length = row.length := by
  unfold updateRow
  refine foldl_preserve (fun r : List (WithBot ℝ) => r.length = row.length) _
    (fun r p hr => ?_) ((pyDropInt sentence curr).enum) row rfl
  simpa using hr

/-- Pointwise `-inf` preservation through `updateScoresCore`. -/
theorem updateScoresCore_preserves_bot (st : GenState) (dch : CharType → ℚ)
    (dused dleft : List ℚ) (sc : List (List (WithBot ℝ))) (i k : ℕ)
    (h : (sc.getD i []).getD k ⊥ = ⊥) :
    ((updateScoresCore st dch dused dleft sc).getD i []).getD k ⊥ = ⊥ := by
  unfold updateScoresCore
  refine foldl_preserve (fun s : List (List (WithBot ℝ)) => (s.getD i []).getD k ⊥ = ⊥)
    _ (fun s sid hs => ?_) (List.range st.sentences.length) sc h
  dsimp only
  rw [getD_set_general]
  split
  · next hcond =>
    refine updateRow_preserves_bot _ _ _ _ _ _ k ?_
    rw [hcond.1]
    exact hs
  · exact hs

/-- Pointwise length preservation of the rows through `updateScoresCore`. -/
theorem updateScoresCore_row_length (st : GenState) (dch : CharType → ℚ)
    (dused dleft : List ℚ) (sc : List (List (WithBot ℝ))) (i : ℕ) :
    ((updateScoresCore st dch dused dleft sc).getD i []).length
      = (sc.getD i []).length := by
  unfold updateScoresCore
  refine foldl_preserve
    (fun s : List (List (WithBot ℝ)) => (s.getD i []).length = (sc.getD i []).length)
    _ (fun s sid hs => ?_) (List.range st.sentences.length) sc rfl
  dsimp only
  rw [getD_set_general]
  split
  · next hcond =>
    rw [updateRow_length, hcond.1]
    exact hs
  · exact hs

/-- The outer length of the score table is preserved by
`updateScoresCore`. -/
theorem updateScoresCore_length (st : GenState) (dch : CharType → ℚ)
    (dused dleft : List ℚ) (sc : List (List (WithBot ℝ))) :
    (updateScoresCore st dch dused dleft sc).length = sc.length := by
  unfold updateScoresCore
  refine foldl_preserve (fun s : List (List (WithBot ℝ)) => s.length = sc.length) _
    (fun s sid hs => ?_) (List.range st.sentences.length) sc rfl
  simpa using hs

/-- The row built by `_init_scores` for an in-range source. -/
theorem initScores_row (st : GenState) (i : ℕ)
    (hi : i < (st.sentences.zip st.currIds).length) :
    (initScores st).getD i []
      = (List.range ((st.sentences.zip st.currIds)[i].1.length)).map
          (fun (k : ℕ) =>
            if (k : ℤ) ≤ (st.sentences.zip st.currIds)[i].2 then (⊥ : WithBot ℝ)
            else some (0 : ℝ)) := by
  unfold initScores
  rw [List.getD_eq_getElem _ _ (by simpa using hi), List.getElem_map]

/-- Lemma: `_init_scores` puts `-inf` at every position at or before the cursor
(and out-of-range queries default to `-inf`). -/
theorem initScores_entry_bot (st : GenState) (i j : ℕ)
    (hj : (j : ℤ) ≤ st.currIds.getD i 0) :
    ((initScores st).getD i []).getD j ⊥ = ⊥ := by
  by_cases hi : i < (st.sentences.zip st.currIds).length
  · rw [initScores_row st i hi]
    by_cases hjl : j < (st.sentences.zip st.currIds)[i].1.length
    · rw [List.getD_eq_getElem _ _ (by simpa using hjl), List.getElem_map,
        List.getElem_range]
      rw [if_pos]
      have h2 : i < st.currIds.length := by
        rw [List.length_zip] at hi
        omega
      rw [List.getElem_zip]
      rw [List.getD_eq_getElem st.currIds 0 h2] at hj
      exact hj
    · rw [List.getD_eq_default _ _ (by simpa using Nat.le_of_not_lt hjl)]
  · have hout : (initScores st).getD i [] = ([] : List (WithBot ℝ)) := by
      refine List.getD_eq_default _ _ ?_
      unfold initScores
      rw [List.length_map]
      exact Nat.le_of_not_lt hi
    rw [hout]
    rfl

/-- The row built by `_init_scores` for an in-range source has the length
of that source sentence. -/
theorem initScores_row_length (st : GenState) (i : ℕ)
    (hi : i < (st.sentences.zip st.currIds).length) :
    ((initScores st).getD i []).length = (st.sentences.getD i []).length := by
  rw [initScores_row st i hi]
  simp only [List.length_map, List.length_range]
  have h1 : i < st.sentences.length := by
    rw [List.length_zip] at hi
    omega
  rw [List.getElem_zip, List.getD_eq_getElem st.sentences [] h1]

/-- Python `round` on an exact integer is that integer. -/
theorem pyRound_intCast (n : ℤ) : pyRound (n : ℚ) = n := by
  unfold pyRound
  rw [Int.floor_intCast, sub_self]
  norm_num

/-- Inversion of a successful `_update_scores` call. -/
theorem updateScores_ok_elim (st : GenState) (S : List (List (WithBot ℝ)))
    (h : updateScores st = .ok S) :
    S = updateScoresCore st (chartypeDist st) (distUsedList st.numUsed)
        (distLeftList st.numLeft) (initScores st) := by
  unfold updateScores at h
  split at h
  · exact absurd h (by simp)
  · split at h
    · exact absurd h (by simp)
    · exact (Except.ok.inj h).symm

/-- C2 amended.  Within one `generate` iteration, whenever the selected
entry's score is finite, the selected position lies strictly beyond the
chosen source's cursor, and the re-synchronisation sets that source's
cursor to exactly the selected position (hence the chosen source's cursor
strictly increases; other sources' cursors may still decrease). -/
theorem claim_C2_amended (st : GenState) (S : List (List (WithBot ℝ)))
    (st' : GenState) (i j : ℕ) (hS : updateScores st = .ok S)
    (hstep : genStep st = .ok st') (hsel : extractNextCharIndex S = (i, j))
    (hfin : (S.getD i []).getD j ⊥ ≠ ⊥) :
    st.currIds.getD i 0 < (j : ℤ) ∧ st'.currIds.getD i 0 = (j : ℤ) := by
  have hSeq := updateScores_ok_elim st S hS
  have h1 : st.currIds.getD i 0 < (j : ℤ) := by
    by_contra hc
    push_neg at hc
    apply hfin
    rw [hSeq]
    exact updateScoresCore_preserves_bot st _ _ _ _ i j (initScores_entry_bot st i j hc)
  refine ⟨h1, ?_⟩
  have hiS : i < S.length := by
    by_contra hge
    apply hfin
    have hrow : S.getD i [] = ([] : List (WithBot ℝ)) :=
      List.getD_eq_default _ _ (Nat.le_of_not_lt hge)
    rw [hrow]
    rfl
  have hzip : i < (st.sentences.zip st.currIds).length := by
    rw [hSeq, updateScoresCore_length] at hiS
    unfold initScores at hiS
    rw [List.length_map] at hiS
    exact hiS
  have hsent : i < st.sentences.length := by
    rw [List.length_zip] at hzip
    omega
  have hrowlen : (S.getD i []).length = (st.sentences.getD i []).length := by
    rw [hSeq, updateScoresCore_row_length, initScores_row_length st i hzip]
  have hjlen : j < (st.sentences.getD i []).length := by
    by_contra hge
    apply hfin
    refine List.getD_eq_default _ _ ?_
    rw [hrowlen]
    omega
  have hlen0 : ((st.sentences.getD i []).length : ℚ) ≠ 0 := by
    have h0 : (st.sentences.getD i []).length ≠ 0 := by omega
    exact_mod_cast h0
  have h3 : genStepPost st S = st' := by
    unfold genStep at hstep
    rw [hS] at hstep
    have h4 : Except.ok (genStepPost st S) = Except.ok st' := hstep
    exact Except.ok.inj h4
  rw [← h3]
  unfold genStepPost
  dsimp only
  rw [hsel]
  dsimp only
  rw [List.getD_eq_getElem _ _ (by rw [List.length_map]; exact hsent),
    List.getElem_map]
  have hmul : ((st.sentences[i].length : ℚ))
      * (((j : ℚ) + 1) / ((st.sentences.getD i []).length : ℚ))
      = (j : ℚ) + 1 := by
    rw [List.getD_eq_getElem st.sentences [] hsent] at hlen0 ⊢
    field_simp
  rw [hmul]
  have hcast : ((j : ℚ) + 1) = (((j : ℤ) + 1 : ℤ) : ℚ) := by
    push_cast
    ring
  rw [hcast, pyRound_intCast]
  omega

/-- C1 amended.  Whenever the `generate` loop does return normally, the
last character appended to the output has category `EOS`, and the content
characters (those joined into the returned string) contain no marker-
category character.  (Termination itself fails on the code: see the C1
counterexample, where `generate` raises `ZeroDivisionError`.) -/
theorem claim_C1_amended (fuel : ℕ) (st fin : GenState)
    (h : generateLoop fuel st = .ok fin) :
    lastChartype fin.output = CharType.EOS ∧
    ∀ c ∈ contentChars fin.output,
      c.chartype ≠ CharType.BOS ∧ c.chartype ≠ CharType.EOS := by
  constructor
  · induction fuel generalizing st with
    | zero => simp [generateLoop] at h
    | succ n ih =>
      unfold generateLoop at h
      by_cases hc : lastChartype st.output ≠ CharType.EOS
      · rw [if_pos hc] at h
        cases hg : genStep st with
        | error e =>
          rw [hg] at h
          exact absurd h (by simp [Bind.bind, Except.bind])
        | ok st2 =>
          rw [hg] at h
          have h2 : generateLoop n st2 = .ok fin := h
          exact ih st2 h2
      · rw [if_neg hc] at h
        push_neg at hc
        rw [← Except.ok.inj h]
        exact hc
  · intro c hc
    unfold contentChars at hc
    have := (List.mem_filter.mp hc).2
    simpa using this

/-! ## Comparing log-scores -/

theorem epsR_pos : 0 < epsR := by
  unfold epsR epsQ
  norm_num

theorem distPos_pos (i : ℕ) : 0 < distPos i := by
  unfold distPos normScale
  positivity

/-- The positional Gaussian weight is antitone in the distance. -/
theorem distPos_anti {i j : ℕ} (h : i ≤ j) : distPos j ≤ distPos i := by
  unfold distPos normScale
  have hc : (i : ℝ) ≤ (j : ℝ) := by exact_mod_cast h
  have hi0 : (0 : ℝ) ≤ (i : ℝ) := Nat.cast_nonneg i
  gcongr

/-- The positional Gaussian weight is strictly antitone in the distance. -/
theorem distPos_strictAnti {i j : ℕ} (h : i < j) : distPos j < distPos i := by
  unfold distPos normScale
  have hD : (0 : ℝ) < 2 * Real.sqrt (2 * Real.pi) := by positivity
  apply div_lt_div_of_pos_right ?_ hD
  apply Real.exp_lt_exp.mpr
  have hc : (i : ℝ) < (j : ℝ) := by exact_mod_cast h
  have hi0 : (0 : ℝ) ≤ (i : ℝ) := Nat.cast_nonneg i
  nlinarith

/-- Monotonicity of the four-term log-score: closer position and larger
(nonnegative) probabilities give at least as large a score. -/
theorem charScore_le_mono (dc du dl : ℚ) (i : ℕ) (dc' du' dl' : ℚ) (i' : ℕ)
    (hdc0 : 0 ≤ dc) (hdu0 : 0 ≤ du) (hdl0 : 0 ≤ dl)
    (hi : i' ≤ i) (hdc : dc ≤ dc') (hdu : du ≤ du') (hdl : dl ≤ dl') :
    charScore dc du dl i ≤ charScore dc' du' dl' i' := by
  have h1 : Real.log (distPos i + epsR) ≤ Real.log (distPos i' + epsR) :=
    Real.log_le_log (by have := distPos_pos i; linarith [epsR_pos])
      (add_le_add_right (distPos_anti hi) _)
  have h2 : Real.log ((dc : ℝ) + epsR) ≤ Real.log ((dc' : ℝ) + epsR) :=
    Real.log_le_log
      (by have : (0:ℝ) ≤ (dc : ℝ) := by exact_mod_cast hdc0
          linarith [epsR_pos])
      (add_le_add_right (by exact_mod_cast hdc) _)
  have h3 : Real.log ((du : ℝ) + epsR) ≤ Real.log ((du' : ℝ) + epsR) :=
    Real.log_le_log
      (by have : (0:ℝ) ≤ (du : ℝ) := by exact_mod_cast hdu0
          linarith [epsR_pos])
      (add_le_add_right (by exact_mod_cast hdu) _)
  have h4 : Real.log ((dl : ℝ) + epsR) ≤ Real.log ((dl' : ℝ) + epsR) :=
    Real.log_le_log
      (by have : (0:ℝ) ≤ (dl : ℝ) := by exact_mod_cast hdl0
          linarith [epsR_pos])
      (add_le_add_right (by exact_mod_cast hdl) _)
  unfold charScore distPosWeight distChartypeWeight distUsedWeight distLeftWeight
  linarith

/-- Strict monotonicity of the four-term log-score: additionally one of
the four comparisons is strict. -/
theorem charScore_lt_mono (dc du dl : ℚ) (i : ℕ) (dc' du' dl' : ℚ) (i' : ℕ)
    (hdc0 : 0 ≤ dc) (hdu0 : 0 ≤ du) (hdl0 : 0 ≤ dl)
    (hi : i' ≤ i) (hdc : dc ≤ dc') (hdu : du ≤ du') (hdl : dl ≤ dl')
    (hstrict : i' < i ∨ dc < dc' ∨ du < du' ∨ dl < dl') :
    charScore dc du dl i < charScore dc' du' dl' i' := by
  have h1 : Real.log (distPos i + epsR) ≤ Real.log (distPos i' + epsR) :=
    Real.log_le_log (by have := distPos_pos i; linarith [epsR_pos])
      (add_le_add_right (distPos_anti hi) _)
  have h2 : Real.log ((dc : ℝ) + epsR) ≤ Real.log ((dc' : ℝ) + epsR) :=
    Real.log_le_log
      (by have : (0:ℝ) ≤ (dc : ℝ) := by exact_mod_cast hdc0
          linarith [epsR_pos])
      (add_le_add_right (by exact_mod_cast hdc) _)
  have h3 : Real.log ((du : ℝ) + epsR) ≤ Real.log ((du' : ℝ) + epsR) :=
    Real.log_le_log
      (by have : (0:ℝ) ≤ (du : ℝ) := by exact_mod_cast hdu0
          linarith [epsR_pos])
      (add_le_add_right (by exact_mod_cast hdu) _)
  have h4 : Real.log ((dl : ℝ) + epsR) ≤ Real.log ((dl' : ℝ) + epsR) :=
    Real.log_le_log
      (by have : (0:ℝ) ≤ (dl : ℝ) := by exact_mod_cast hdl0
          linarith [epsR_pos])
      (add_le_add_right (by exact_mod_cast hdl) _)
  have hkey : charScore dc du dl i < charScore dc' du' dl' i' ∨ True := Or.inr trivial
  rcases hstrict with hs | hs | hs | hs
  · have h1' : Real.log (distPos i + epsR) < Real.log (distPos i' + epsR) :=
      Real.log_lt_log (by have := distPos_pos i; linarith [epsR_pos])
        (add_lt_add_right (distPos_strictAnti hs) _)
    unfold charScore distPosWeight distChartypeWeight distUsedWeight distLeftWeight
    linarith
  · have h2' : Real.log ((dc : ℝ) + epsR) < Real.log ((dc' : ℝ) + epsR) :=
      Real.log_lt_log
        (by have : (0:ℝ) ≤ (dc : ℝ) := by exact_mod_cast hdc0
            linarith [epsR_pos])
        (add_lt_add_right (by exact_mod_cast hs) _)
    unfold charScore distPosWeight distChartypeWeight distUsedWeight distLeftWeight
    linarith
  · have h3' : Real.log ((du : ℝ) + epsR) < Real.log ((du' : ℝ) + epsR) :=
      Real.log_lt_log
        (by have : (0:ℝ) ≤ (du : ℝ) := by exact_mod_cast hdu0
            linarith [epsR_pos])
        (add_lt_add_right (by exact_mod_cast hs) _)
    unfold charScore distPosWeight distChartypeWeight distUsedWeight distLeftWeight
    linarith
  · have h4' : Real.log ((dl : ℝ) + epsR) < Real.log ((dl' : ℝ) + epsR) :=
      Real.log_lt_log
        (by have : (0:ℝ) ≤ (dl : ℝ) := by exact_mod_cast hdl0
            linarith [epsR_pos])
        (add_lt_add_right (by exact_mod_cast hs) _)
    unfold charScore distPosWeight distChartypeWeight distUsedWeight distLeftWeight
    linarith

theorem r1_fit : fitE idTranslit stdVowels ["", " "] = .ok r1fit := by
  unfold fitE
  rw [if_neg (by decide)]
  have h1 : ["", " "].map (fun s => mkSentence idTranslit stdVowels s 2 1)
      = [r1sentA, r1sentB] := rfl
  rw [h1]
  unfold r1fit
  congr 2
  norm_num [show contentLen r1sentA = 0 from by decide,
    show contentLen r1sentB = 1 from by decide,
    show symbolCount [r1sentA, r1sentB] = 1 from by decide]

set_option maxHeartbeats 2000000 in
theorem r1_scores : updateScores r1gen0 = .ok r1S := by
  have hch : chartypeDist r1gen0 = (fun ct =>
      if ct = CharType.BOS then 5/11 else if ct = CharType.EOS then 2/11
      else if ct = CharType.CONSONANT then 1/11 else if ct = CharType.VOWEL then 1/11
      else 6/11) := by
    funext ct
    cases ct <;>
      norm_num +decide [chartypeDist, ensembleGetDist, ensembleFit, ngramFit,
        convertCountToProb, countChartypes, countSentence, bumpCount, initModel,
        CharType.all, modelWrap, runLenSinceSymbol, pyDropInt, r1gen0, r1fit, r1sentA,
        r1sentB, mkSentence, mkChar, classify, idTranslit, stdVowels,
        symbolMagnification, pyIsAlpha, bosToken, eosToken, List.range_succ,
        List.replicate, List.foldl_append]
  have hdu : distUsedList r1gen0.numUsed = [1/2, 1/2] := by
    norm_num [distUsedList, r1gen0, r1fit]
  have hdl : distLeftList r1gen0.numLeft = [0, 1] := by
    norm_num [distLeftList, r1gen0, r1fit]
  unfold updateScores
  rw [if_neg (by decide : ¬(r1gen0.numLeft.sum = 0))]
  rw [hdl, hch, hdu]
  rw [if_neg ?hcond]
  case hcond =>
    simp only [List.any_eq_true, Bool.and_eq_true, decide_eq_true_eq]
    rintro ⟨sid, hsid, hne, hle⟩
    simp only [List.mem_range, show r1gen0.sentences.length = 2 from rfl] at hsid
    interval_cases sid <;> norm_num [epsQ] at hle
  rfl

theorem r1_extract : extractNextCharIndex r1S = (1, 2) := by
  rw [extract_eq_scan]
  have hs : scanPairs r1S = [((0,0), (⊥ : WithBot ℝ)), ((0,1), ⊥),
      ((0,2), ((0 + charScore (2/11) (1/2) 0 1 : ℝ) : WithBot ℝ)),
      ((1,0), ⊥), ((1,1), ⊥),
      ((1,2), ((0 + charScore (6/11) (1/2) 1 1 : ℝ) : WithBot ℝ)),
      ((1,3), ((0 + charScore (2/11) (1/2) 1 2 : ℝ) : WithBot ℝ))] := rfl
  rw [hs]
  have hsplit : ([((0,0), (⊥ : WithBot ℝ)), ((0,1), ⊥),
      ((0,2), ((0 + charScore (2/11) (1/2) 0 1 : ℝ) : WithBot ℝ)),
      ((1,0), ⊥), ((1,1), ⊥),
      ((1,2), ((0 + charScore (6/11) (1/2) 1 1 : ℝ) : WithBot ℝ)),
      ((1,3), ((0 + charScore (2/11) (1/2) 1 2 : ℝ) : WithBot ℝ))]
      : List ((ℕ × ℕ) × WithBot ℝ))
      = [((0,0), (⊥ : WithBot ℝ)), ((0,1), ⊥),
         ((0,2), ((0 + charScore (2/11) (1/2) 0 1 : ℝ) : WithBot ℝ)),
         ((1,0), ⊥), ((1,1), ⊥)]
        ++ ((1,2), ((0 + charScore (6/11) (1/2) 1 1 : ℝ) : WithBot ℝ))
          :: [((1,3), ((0 + charScore (2/11) (1/2) 1 2 : ℝ) : WithBot ℝ))] := rfl
  rw [hsplit, foldl_extractStep_pick _ _ _ _ (WithBot.bot_lt_coe _) ?h1 ?h2]
  case h1 =>
    intro q hq
    simp only [List.mem_cons, List.not_mem_nil, or_false] at hq
    rcases hq with rfl | rfl | rfl | rfl | rfl
    · exact WithBot.bot_lt_coe _
    · exact WithBot.bot_lt_coe _
    · refine WithBot.coe_lt_coe.mpr ?_
      have := charScore_lt_mono (2/11) (1/2) 0 1 (6/11) (1/2) 1 1
        (by norm_num) (by norm_num) (by norm_num) le_rfl (by norm_num) le_rfl
        (by norm_num) (Or.inr (Or.inl (by norm_num)))
      linarith
    · exact WithBot.bot_lt_coe _
    · exact WithBot.bot_lt_coe _
  case h2 =>
    intro q hq
    simp only [List.mem_cons, List.not_mem_nil, or_false] at hq
    rcases hq with rfl
    refine WithBot.coe_le_coe.mpr ?_
    have := charScore_le_mono (2/11) (1/2) 1 2 (6/11) (1/2) 1 1
      (by norm_num) (by norm_num) (by norm_num) (by norm_num) (by norm_num)
      le_rfl (by norm_num)
    linarith

set_option maxRecDepth 4000 in
theorem r1_step1 : genStep r1gen0 = .ok r1gen1 := by
  unfold genStep
  rw [r1_scores]
  show Except.ok (genStepPost r1gen0 r1S) = Except.ok r1gen1
  unfold genStepPost
  rw [r1_extract]
  norm_num [r1gen0, r1fit, r1gen1, mkSentence, pyRound,
    show List.length r1sentA = 3 from by decide,
    show List.length r1sentB = 4 from by decide,
    show Int.fract ((3:ℚ) * (3/4)) = 1/4 from by norm_num [Int.fract],
    show Int.fract ((9:ℚ) / 4) = 1/4 from by norm_num [Int.fract],
    show Int.fract ((4:ℚ) * (3/4)) = 0 from by norm_num [Int.fract],
    show (r1sentB[2]? : Option PyChar) = some (mkChar idTranslit stdVowels " ") from by decide,
    List.getElem_eq_iff,
    show ⌊(3:ℚ) * (3/4)⌋ = 2 from by norm_num,
    show ⌊(4:ℚ) * (3/4)⌋ = 3 from by norm_num]

theorem r1_step2 : genStep r1gen1 = .error .zeroDivisionError := by
  unfold genStep updateScores
  rw [if_pos (by decide : r1gen1.numLeft.sum = 0)]
  rfl

theorem r1_never (fuel : ℕ) (st' : GenState) : generateLoop fuel r1gen0 ≠ .ok st' := by
  match fuel with
  | 0 => simp [generateLoop]
  | 1 =>
    unfold generateLoop
    rw [if_pos (by decide : lastChartype r1gen0.output ≠ CharType.EOS), r1_step1]
    intro h
    have h2 : generateLoop 0 r1gen1 = .ok st' := h
    simp [generateLoop] at h2
  | n + 2 =>
    unfold generateLoop
    rw [if_pos (by decide : lastChartype r1gen0.output ≠ CharType.EOS), r1_step1]
    intro h
    have h2 : generateLoop (n + 1) r1gen1 = .ok st' := h
    unfold generateLoop at h2
    rw [if_pos (by decide : lastChartype r1gen1.output ≠ CharType.EOS), r1_step2] at h2
    exact absurd h2 (by simp [Bind.bind, Except.bind])

/-- C1 counterexample.  The corpus `["", " "]` is a non-empty sentence
list whose corpus contains a `SYMBOL` character and `fit` succeeds, yet
`generate()` never returns: its second loop iteration raises
`ZeroDivisionError` (all remaining-counts hit zero after the space is
emitted, before any `EndMarker` is selected). -/
theorem claim_C1_counterexample :
    fitSucceeds idTranslit stdVowels ["", " "] ∧
    0 < symbolCount (["", " "].map (fun s => mkSentence idTranslit stdVowels s 2 1)) ∧
    ¬ generateAfterFitReturns idTranslit stdVowels ["", " "] := by
  refine ⟨⟨r1fit, r1_fit⟩, by decide, ?_⟩
  rintro ⟨st, fuel, res, hfit, hgen⟩
  rw [r1_fit] at hfit
  have hst : st = r1fit := (Except.ok.inj hfit).symm
  subst hst
  have hgen2 : (generateLoop fuel r1gen0).map
      (fun st' => (contentString st'.output, st'.toFitState)) = .ok res := hgen
  cases hl : generateLoop fuel r1gen0 with
  | error e =>
    rw [hl] at hgen2
    exact absurd hgen2 (by simp [Except.map])
  | ok st' => exact absurd hl (r1_never fuel st')

theorem r2_fit : fitE idTranslit stdVowels ["abc efg", ""] = .ok r2fit := by
  unfold fitE
  rw [if_neg (by decide)]
  have h1 : ["abc efg", ""].map (fun s => mkSentence idTranslit stdVowels s 2 1)
      = [r2sentA, r2sentB] := rfl
  rw [h1]
  unfold r2fit
  congr 2
  norm_num [show contentLen r2sentA = 7 from by decide,
    show contentLen r2sentB = 0 from by decide,
    show symbolCount [r2sentA, r2sentB] = 1 from by decide]

set_option maxHeartbeats 4000000 in
theorem r2_scores : updateScores r2gen0 = .ok r2S := by
  have hch : chartypeDist r2gen0 = (fun ct =>
      if ct = CharType.BOS then 5/11 else if ct = CharType.EOS then 2/11
      else if ct = CharType.CONSONANT then 1/11 else if ct = CharType.VOWEL then 2/11
      else 1/11) := by
    funext ct
    cases ct <;>
      norm_num +decide [chartypeDist, ensembleGetDist, ensembleFit, ngramFit,
        convertCountToProb, countChartypes, countSentence, bumpCount, initModel,
        CharType.all, modelWrap, runLenSinceSymbol, pyDropInt, r2gen0, r2fit, r2sentA,
        r2sentB, mkSentence, mkChar, classify, idTranslit, stdVowels,
        symbolMagnification, pyIsAlpha, bosToken, eosToken, List.range_succ,
        List.replicate, List.foldl_append]
  have hdu : distUsedList r2gen0.numUsed = [1/2, 1/2] := by
    norm_num [distUsedList, r2gen0, r2fit]
  have hdl : distLeftList r2gen0.numLeft = [1, 0] := by
    norm_num [distLeftList, r2gen0, r2fit]
  unfold updateScores
  rw [if_neg (by decide : ¬(r2gen0.numLeft.sum = 0))]
  rw [hdl, hch, hdu]
  rw [if_neg ?hcond]
  case hcond =>
    simp only [List.any_eq_true, Bool.and_eq_true, decide_eq_true_eq]
    rintro ⟨sid, hsid, hne, hle⟩
    simp only [List.mem_range, show r2gen0.sentences.length = 2 from rfl] at hsid
    interval_cases sid <;> norm_num [epsQ] at hle
  rfl

theorem r2_extract : extractNextCharIndex r2S = (0, 2) := by
  rw [extract_eq_scan]
  have hs : scanPairs r2S = [((0,0), (⊥ : WithBot ℝ)), ((0,1), ⊥)]
      ++ ((0,2), ((0 + charScore (2/11) (1/2) 1 1 : ℝ) : WithBot ℝ))
        :: [((0,3), ((0 + charScore (1/11) (1/2) 1 2 : ℝ) : WithBot ℝ)),
            ((0,4), ((0 + charScore (1/11) (1/2) 1 3 : ℝ) : WithBot ℝ)),
            ((0,5), ((0 + charScore (1/11) (1/2) 1 4 : ℝ) : WithBot ℝ)),
            ((0,6), ((0 + charScore (2/11) (1/2) 1 5 : ℝ) : WithBot ℝ)),
            ((0,7), ((0 + charScore (1/11) (1/2) 1 6 : ℝ) : WithBot ℝ)),
            ((0,8), ((0 + charScore (1/11) (1/2) 1 7 : ℝ) : WithBot ℝ)),
            ((0,9), ((0 + charScore (2/11) (1/2) 1 8 : ℝ) : WithBot ℝ)),
            ((1,0), (⊥ : WithBot ℝ)), ((1,1), ⊥),
            ((1,2), ((0 + charScore (2/11) (1/2) 0 1 : ℝ) : WithBot ℝ))] := rfl
  rw [hs, foldl_extractStep_pick _ _ _ _ (WithBot.bot_lt_coe _) ?h1 ?h2]
  case h1 =>
    intro q hq
    simp only [List.mem_cons, List.not_mem_nil, or_false] at hq
    rcases hq with rfl | rfl
    · exact WithBot.bot_lt_coe _
    · exact WithBot.bot_lt_coe _
  case h2 =>
    intro q hq
    simp only [List.mem_cons, List.not_mem_nil, or_false] at hq
    rcases hq with rfl | rfl | rfl | rfl | rfl | rfl | rfl | rfl | rfl | rfl
    · refine WithBot.coe_le_coe.mpr ?_
      have := charScore_le_mono (1/11) (1/2) 1 2 (2/11) (1/2) 1 1
        (by norm_num) (by norm_num) (by norm_num) (by norm_num) (by norm_num)
        le_rfl le_rfl
      linarith
    · refine WithBot.coe_le_coe.mpr ?_
      have := charScore_le_mono (1/11) (1/2) 1 3 (2/11) (1/2) 1 1
        (by norm_num) (by norm_num) (by norm_num) (by norm_num) (by norm_num)
        le_rfl le_rfl
      linarith
    · refine WithBot.coe_le_coe.mpr ?_
      have := charScore_le_mono (1/11) (1/2) 1 4 (2/11) (1/2) 1 1
        (by norm_num) (by norm_num) (by norm_num) (by norm_num) (by norm_num)
        le_rfl le_rfl
      linarith
    · refine WithBot.coe_le_coe.mpr ?_
      have := charScore_le_mono (2/11) (1/2) 1 5 (2/11) (1/2) 1 1
        (by norm_num) (by norm_num) (by norm_num) (by norm_num) le_rfl
        le_rfl le_rfl
      linarith
    · refine WithBot.coe_le_coe.mpr ?_
      have := charScore_le_mono (1/11) (1/2) 1 6 (2/11) (1/2) 1 1
        (by norm_num) (by norm_num) (by norm_num) (by norm_num) (by norm_num)
        le_rfl le_rfl
      linarith
    · refine WithBot.coe_le_coe.mpr ?_
      have := charScore_le_mono (1/11) (1/2) 1 7 (2/11) (1/2) 1 1
        (by norm_num) (by norm_num) (by norm_num) (by norm_num) (by norm_num)
        le_rfl le_rfl
      linarith
    · refine WithBot.coe_le_coe.mpr ?_
      have := charScore_le_mono (2/11) (1/2) 1 8 (2/11) (1/2) 1 1
        (by norm_num) (by norm_num) (by norm_num) (by norm_num) le_rfl
        le_rfl le_rfl
      linarith
    · exact bot_le
    · exact bot_le
    · refine WithBot.coe_le_coe.mpr ?_
      have := charScore_le_mono (2/11) (1/2) 0 1 (2/11) (1/2) 1 1
        (by norm_num) (by norm_num) (by norm_num) le_rfl le_rfl
        le_rfl (by norm_num)
      linarith

set_option maxRecDepth 4000 in
theorem r2_step1 : genStep r2gen0 = .ok r2gen1 := by
  unfold genStep
  rw [r2_scores]
  show Except.ok (genStepPost r2gen0 r2S) = Except.ok r2gen1
  unfold genStepPost
  rw [r2_extract]
  norm_num [r2gen0, r2fit, r2gen1, mkSentence, pyRound,
    show List.length r2sentA = 10 from by decide,
    show List.length r2sentB = 3 from by decide,
    show Int.fract ((10:ℚ) * (3/10)) = 0 from by norm_num [Int.fract],
    show Int.fract ((3:ℚ) * (3/10)) = 9/10 from by norm_num [Int.fract],
    show Int.fract ((9:ℚ) / 10) = 9/10 from by norm_num [Int.fract],
    show (r2sentA[2]? : Option PyChar) = some (mkChar idTranslit stdVowels "a") from by decide,
    List.getElem_eq_iff,
    show ⌊(10:ℚ) * (3/10)⌋ = 3 from by norm_num,
    show ⌊(3:ℚ) * (3/10)⌋ = 0 from by norm_num,
    show ⌊(9:ℚ) / 10⌋ = 0 from by norm_num]

/-- C2 counterexample.  On `fit(["abc efg", ""])` the first `generate`
iteration moves the cursors from `[1, 1]` to `[2, 0]`: source 1's read
cursor decreases from 1 to 0 after the re-synchronisation step. -/
theorem claim_C2_counterexample :
    afterFitStep idTranslit stdVowels ["abc efg", ""] = some ([1, 1], [2, 0]) ∧
    (([2, 0] : List ℤ).getD 1 0 < ([1, 1] : List ℤ).getD 1 0) := by
  constructor
  · unfold afterFitStep
    rw [r2_fit]
    show (match genStep r2gen0 with
      | .error _ => none
      | .ok st' => some (r2fit.currIds, st'.currIds)) = some ([1, 1], [2, 0])
    rw [r2_step1]
    rfl
  · decide

/-- Witness for the amended C2 at run 2: the chosen source 0 was selected
at position 2, strictly beyond its cursor 1, and its cursor becomes 2. -/
theorem claim_C2_witness :
    r2gen0.currIds.getD 0 0 < ((2 : ℕ) : ℤ) ∧
    r2gen1.currIds.getD 0 0 = ((2 : ℕ) : ℤ) :=
  claim_C2_amended r2gen0 r2S r2gen1 0 2 r2_scores r2_step1 r2_extract
    (show ((0 + charScore (2/11) (1/2) 1 1 : ℝ) : WithBot ℝ) ≠ ⊥ from WithBot.coe_ne_bot)

theorem r3_fit : fitE idTranslit stdVowels ["a", " "] = .ok r3fit := by
  unfold fitE
  rw [if_neg (by decide)]
  have h1 : ["a", " "].map (fun s => mkSentence idTranslit stdVowels s 2 1)
      = [r3sentA, r3sentB] := rfl
  rw [h1]
  unfold r3fit
  congr 2
  norm_num [show contentLen r3sentA = 1 from by decide,
    show contentLen r3sentB = 1 from by decide,
    show symbolCount [r3sentA, r3sentB] = 1 from by decide]

set_option maxHeartbeats 4000000 in
theorem r3_scores1 : updateScores r3gen0 = .ok r3S1 := by
  have hch : chartypeDist r3gen0 = (fun ct =>
      if ct = CharType.BOS then 5/11 else if ct = CharType.EOS then 1/11
      else if ct = CharType.CONSONANT then 1/11 else if ct = CharType.VOWEL then 2/11
      else 2/11) := by
    funext ct
    cases ct <;>
      norm_num +decide [chartypeDist, ensembleGetDist, ensembleFit, ngramFit,
        convertCountToProb, countChartypes, countSentence, bumpCount, initModel,
        CharType.all, modelWrap, runLenSinceSymbol, pyDropInt, r3gen0, r3fit, r3sentA,
        r3sentB, mkSentence, mkChar, classify, idTranslit, stdVowels,
        symbolMagnification, pyIsAlpha, bosToken, eosToken, List.range_succ,
        List.replicate, List.foldl_append]
  have hdu : distUsedList r3gen0.numUsed = [1/2, 1/2] := by
    norm_num [distUsedList, r3gen0, r3fit]
  have hdl : distLeftList r3gen0.numLeft = [1/2, 1/2] := by
    norm_num [distLeftList, r3gen0, r3fit]
  unfold updateScores
  rw [if_neg (by decide : ¬(r3gen0.numLeft.sum = 0))]
  rw [hdl, hch, hdu]
  rw [if_neg ?hcond]
  case hcond =>
    simp only [List.any_eq_true, Bool.and_eq_true, decide_eq_true_eq]
    rintro ⟨sid, hsid, hne, hle⟩
    simp only [List.mem_range, show r3gen0.sentences.length = 2 from rfl] at hsid
    interval_cases sid <;> norm_num [epsQ] at hle
  rfl

theorem r3_extract1 : extractNextCharIndex r3S1 = (0, 2) := by
  rw [extract_eq_scan]
  have hs : scanPairs r3S1 = [((0,0), (⊥ : WithBot ℝ)), ((0,1), ⊥)]
      ++ ((0,2), ((0 + charScore (2/11) (1/2) (1/2) 1 : ℝ) : WithBot ℝ))
        :: [((0,3), ((0 + charScore (1/11) (1/2) (1/2) 2 : ℝ) : WithBot ℝ)),
            ((1,0), (⊥ : WithBot ℝ)), ((1,1), ⊥),
            ((1,2), ((0 + charScore (2/11) (1/2) (1/2) 1 : ℝ) : WithBot ℝ)),
            ((1,3), ((0 + charScore (1/11) (1/2) (1/2) 2 : ℝ) : WithBot ℝ))] := rfl
  rw [hs, foldl_extractStep_pick _ _ _ _ (WithBot.bot_lt_coe _) ?h1 ?h2]
  case h1 =>
    intro q hq
    simp only [List.mem_cons, List.not_mem_nil, or_false] at hq
    rcases hq with rfl | rfl
    · exact WithBot.bot_lt_coe _
    · exact WithBot.bot_lt_coe _
  case h2 =>
    intro q hq
    simp only [List.mem_cons, List.not_mem_nil, or_false] at hq
    rcases hq with rfl | rfl | rfl | rfl | rfl
    · refine WithBot.coe_le_coe.mpr ?_
      have := charScore_le_mono (1/11) (1/2) (1/2) 2 (2/11) (1/2) (1/2) 1
        (by norm_num) (by norm_num) (by norm_num) (by norm_num) (by norm_num)
        le_rfl le_rfl
      linarith
    · exact bot_le
    · exact bot_le
    · exact le_rfl
    · refine WithBot.coe_le_coe.mpr ?_
      have := charScore_le_mono (1/11) (1/2) (1/2) 2 (2/11) (1/2) (1/2) 1
        (by norm_num) (by norm_num) (by norm_num) (by norm_num) (by norm_num)
        le_rfl le_rfl
      linarith

set_option maxRecDepth 4000 in
theorem r3_step1 : genStep r3gen0 = .ok r3gen1 := by
  unfold genStep
  rw [r3_scores1]
  show Except.ok (genStepPost r3gen0 r3S1) = Except.ok r3gen1
  unfold genStepPost
  rw [r3_extract1]
  norm_num [r3gen0, r3fit, r3gen1, mkSentence, pyRound,
    show List.length r3sentA = 4 from by decide,
    show List.length r3sentB = 4 from by decide,
    show Int.fract ((4:ℚ) * (3/4)) = 0 from by norm_num [Int.fract],
    show Int.fract ((3:ℚ)) = 0 from by norm_num [Int.fract],
    show (r3sentA[2]? : Option PyChar) = some (mkChar idTranslit stdVowels "a") from by decide,
    List.getElem_eq_iff,
    show ⌊(4:ℚ) * (3/4)⌋ = 3 from by norm_num,
    show ⌊(3:ℚ)⌋ = 3 from by norm_num]

set_option maxHeartbeats 4000000 in
theorem r3_scores2 : updateScores r3gen1 = .ok r3S2 := by
  have hch : chartypeDist r3gen1 = (fun ct =>
      if ct = CharType.BOS then 1/6 else if ct = CharType.EOS then 1/3
      else if ct = CharType.CONSONANT then 1/6 else if ct = CharType.VOWEL then 1/6
      else 1/2) := by
    funext ct
    cases ct <;>
      norm_num +decide [chartypeDist, ensembleGetDist, ensembleFit, ngramFit,
        convertCountToProb, countChartypes, countSentence, bumpCount, initModel,
        CharType.all, modelWrap, runLenSinceSymbol, pyDropInt, r3gen1, r3fit, r3sentA,
        r3sentB, mkSentence, mkChar, classify, idTranslit, stdVowels,
        symbolMagnification, pyIsAlpha, bosToken, eosToken, List.range_succ,
        List.replicate, List.foldl_append]
  have hdu : distUsedList r3gen1.numUsed = [1/3, 2/3] := by
    norm_num [distUsedList, r3gen1, r3fit]
  have hdl : distLeftList r3gen1.numLeft = [0, 1] := by
    norm_num [distLeftList, r3gen1, r3fit]
  unfold updateScores
  rw [if_neg (by decide : ¬(r3gen1.numLeft.sum = 0))]
  rw [hdl, hch, hdu]
  rw [if_neg ?hcond]
  case hcond =>
    simp only [List.any_eq_true, Bool.and_eq_true, decide_eq_true_eq]
    rintro ⟨sid, hsid, hne, hle⟩
    simp only [List.mem_range, show r3gen1.sentences.length = 2 from rfl] at hsid
    interval_cases sid <;> norm_num [epsQ] at hle
  rfl

theorem r3_extract2 : extractNextCharIndex r3S2 = (1, 3) := by
  rw [extract_eq_scan]
  have hs : scanPairs r3S2 = [((0,0), (⊥ : WithBot ℝ)), ((0,1), ⊥), ((0,2), ⊥),
      ((0,3), ((0 + charScore (1/3) (1/3) 0 1 : ℝ) : WithBot ℝ)),
      ((1,0), (⊥ : WithBot ℝ)), ((1,1), ⊥), ((1,2), ⊥)]
      ++ ((1,3), ((0 + charScore (1/3) (2/3) 1 1 : ℝ) : WithBot ℝ)) :: [] := rfl
  rw [hs, foldl_extractStep_pick _ _ _ _ (WithBot.bot_lt_coe _) ?h1 ?h2]
  case h1 =>
    intro q hq
    simp only [List.mem_cons, List.not_mem_nil, or_false] at hq
    rcases hq with rfl | rfl | rfl | rfl | rfl | rfl | rfl
    · exact WithBot.bot_lt_coe _
    · exact WithBot.bot_lt_coe _
    · exact WithBot.bot_lt_coe _
    · refine WithBot.coe_lt_coe.mpr ?_
      have := charScore_lt_mono (1/3) (1/3) 0 1 (1/3) (2/3) 1 1
        (by norm_num) (by norm_num) (by norm_num) le_rfl le_rfl (by norm_num)
        (by norm_num) (Or.inr (Or.inr (Or.inl (by norm_num))))
      linarith
    · exact WithBot.bot_lt_coe _
    · exact WithBot.bot_lt_coe _
    · exact WithBot.bot_lt_coe _
  case h2 =>
    intro q hq
    simp at hq

set_option maxRecDepth 4000 in
theorem r3_step2 : genStep r3gen1 = .ok r3gen2 := by
  unfold genStep
  rw [r3_scores2]
  show Except.ok (genStepPost r3gen1 r3S2) = Except.ok r3gen2
  unfold genStepPost
  rw [r3_extract2]
  norm_num [r3gen1, r3gen2, r3fit, mkSentence, pyRound,
    show List.length r3sentA = 4 from by decide,
    show List.length r3sentB = 4 from by decide,
    show Int.fract ((4:ℚ)) = 0 from by norm_num [Int.fract],
    show (r3sentB[3]? : Option PyChar)
      = some (mkChar idTranslit stdVowels eosToken) from by decide,
    List.getElem_eq_iff,
    show ⌊(4:ℚ)⌋ = 4 from by norm_num]

theorem r3_loop : generateLoop 3 r3gen0 = .ok r3gen2 := by
  unfold generateLoop
  rw [if_pos (by decide : lastChartype r3gen0.output ≠ CharType.EOS), r3_step1]
  show generateLoop 2 r3gen1 = .ok r3gen2
  unfold generateLoop
  rw [if_pos (by decide : lastChartype r3gen1.output ≠ CharType.EOS), r3_step2]
  show generateLoop 1 r3gen2 = .ok r3gen2
  unfold generateLoop
  rw [if_neg (by decide : ¬(lastChartype r3gen2.output ≠ CharType.EOS))]

theorem r3_run : generateFull idTranslit stdVowels r3fit 3 = .ok ("a", r3fin) := by
  unfold generateFull
  have hinit : ({ r3fit with output := mkSentence idTranslit stdVowels "" 2 0 } : GenState)
      = r3gen0 := rfl
  rw [hinit, r3_loop]
  show Except.ok (contentString r3gen2.output, r3gen2.toFitState) = .ok ("a", r3fin)
  rw [show contentString r3gen2.output = "a" from by decide]
  rfl

/-- C10.  `generate()` does not reset the per-source session state it
mutates: on `fit(["a", " "])` the run returns `"a"` together with the
end-of-run state (cursors `[3, 3]`, emitted-counts `[1, 1]`,
remaining-counts `[0, 0]`), which is what a second `generate()` without an
intervening `fit` starts from -- not the fit-time initialisation (cursors
`[1, 1]`, emitted `[0, 0]`, remaining `[1, 1]`). -/
theorem claim_C10_no_reset :
    fitE idTranslit stdVowels ["a", " "] = .ok r3fit ∧
    generateFull idTranslit stdVowels r3fit 3 = .ok ("a", r3fin) ∧
    r3fit.currIds = [1, 1] ∧ r3fit.numUsed = [0, 0] ∧ r3fit.numLeft = [1, 1] ∧
    r3fin.currIds = [3, 3] ∧ r3fin.numUsed = [1, 1] ∧ r3fin.numLeft = [0, 0] ∧
    r3fin.currIds ≠ r3fit.currIds ∧ r3fin.numUsed ≠ r3fit.numUsed ∧
    r3fin.numLeft ≠ r3fit.numLeft :=
  ⟨r3_fit, r3_run, rfl, rfl, rfl, rfl, rfl, rfl, by decide, by decide, by decide⟩

/-- Witness for the amended C1 at run 3: the loop returns normally, its
last appended character is the end-marker, and the content carries no
marker category. -/
theorem claim_C1_witness :
    generateLoop 3 r3gen0 = .ok r3gen2 ∧
    lastChartype r3gen2.output = CharType.EOS ∧
    ∀ c ∈ contentChars r3gen2.output,
      c.chartype ≠ CharType.BOS ∧ c.chartype ≠ CharType.EOS :=
  ⟨r3_loop, (claim_C1_amended 3 r3gen0 r3gen2 r3_loop).1,
    (claim_C1_amended 3 r3gen0 r3gen2 r3_loop).2⟩
